import Mathlib

/-!
Verification of the render-plan compiler `build_ffmpeg_command` of
`render_engine.py` (ffmpeg-clipo).

The compiler is embedded shallowly: Python strings become `List Char`,
the JSON scalar values that may populate the render configuration become
`JVal`, the mutable locals of `build_ffmpeg_command`
(`inputs_args`, `filter_complex_parts`, `current_v_stream`,
`next_input_idx`) become an explicit `BuildState` threaded through one
function per stage, in the source's fixed stage order
(crop, zoom, template, subtitles, finalize).  The filesystem checks
`os.path.exists` on the two overlay assets are modelled by a pair of
booleans (`FsState`) passed in as ambient state.
-/

namespace RenderEngine

set_option maxRecDepth 16384

/-- A JSON scalar value, as found in the parsed `render_config` mapping.
The config values fed to the compiler are scalars (`null`, booleans,
numbers, strings); numbers are modelled exactly as rationals. -/
inductive JVal where
  | null : JVal
  | bool : Bool → JVal
  | num : ℚ → JVal
  | str : List Char → JVal
deriving DecidableEq, Repr

/-- Python truthiness of a JSON scalar: `None`, `False`, `0`, and the
empty string are falsy, everything else is truthy. -/
def truthy : JVal → Bool
  | JVal.null => false
  | JVal.bool b => b
  | JVal.num q => q != 0
  | JVal.str s => !s.isEmpty

/-- Truthiness of `config.get(key)`: an absent key yields `None`, which is
falsy. -/
def truthyOpt : Option JVal → Bool
  | none => false
  | some v => truthy v

/-- The `render_config` mapping: the keys `build_ffmpeg_command` reads via
`config.get`, each optionally absent and each holding an arbitrary JSON
scalar. -/
structure RenderConfig where
  crop_mode : Option JVal
  zoom_effect : Option JVal
  template_id : Option JVal
  subtitle_style : Option JVal
  output_format : Option JVal
deriving DecidableEq, Repr

/-- The probed metadata dict `video_info` (`width`, `height`, `duration`).
`ffprobe` yields non-negative integer geometry, so `Nat`; the duration is
read into a local but never used by the compiler. -/
structure VideoInfo where
  width : Nat
  height : Nat
  duration : ℚ
deriving DecidableEq, Repr

/-- Result of the two `os.path.exists` probes on the overlay assets
(`assets/brand_bar.png` and `assets/watermark_logo.png`). -/
structure FsState where
  brand_bar_exists : Bool
  watermark_exists : Bool
deriving DecidableEq, Repr

/-- The mutable locals of `build_ffmpeg_command` while the stages run. -/
structure BuildState where
  inputs_args : List (List Char)
  filter_complex_parts : List (List Char)
  current_v_stream : List Char
  next_input_idx : Nat
deriving DecidableEq, Repr

/-- Characters of a string literal. -/
def chrs (s : String) : List Char := s.toList

/-- Decimal rendering of a natural, as a Python f-string renders an `int`. -/
def natChars (n : Nat) : List Char := (Nat.repr n).toList

/-! ### Fragment texts

Each filter fragment the source emits is an f-string of the shape
`current stream label ++ literal tail` (the two overlay fragments also
interpolate the allocated input index into the tail).  The tails are
named here so the stage functions below read like the source lines. -/

/-- Tail of the crop fragment (line 147):
`crop=w=<tw>:h=<h>:x=<ox>:y=0[cropped]`. -/
def cropFragTail (tw h ox : Nat) : List Char :=
  chrs "crop=w=" ++ natChars tw ++ chrs ":h=" ++ natChars h ++ chrs ":x="
    ++ natChars ox ++ chrs ":y=0[cropped]"

/-- Tail of the zoom fragment (line 159); `zoom_rate = 0.05` renders as
`0.05`. -/
def zoomFragTail : List Char :=
  chrs "scale=w='iw*pow(1+0.05,t)':h='ih*pow(1+0.05,t)':eval=frame,crop=iw:ih[zoomed]"

/-- Tail of the template_1 brand-bar overlay fragment (line 173), with the
allocated input slot index interpolated. -/
def t1OverlayTail (idx : Nat) : List Char :=
  chrs "[" ++ natChars idx ++ chrs ":v]" ++ chrs "overlay=x=0:y=ih-overlay_h[bar_applied]"

/-- Tail of the template_1 fallback colour-bar fragment (line 177). -/
def t1DrawboxTail : List Char :=
  chrs "drawbox=x=0:y=ih-50:w=iw:h=50:color=blue@0.7:t=fill[bar_applied]"

/-- Tail of the template_1 brand-text fragment (line 180). -/
def t1DrawtextTail : List Char :=
  chrs "drawtext=text='Your Brand Here':x=(w-text_w)/2:y=20:fontsize=24:fontcolor=white:box=1:boxcolor=black@0.5:boxborderw=5[templated]"

/-- Tail of the template_2 border fragment (line 184). -/
def t2BorderTail : List Char :=
  chrs "drawbox=x=10:y=10:w=iw-20:h=ih-20:color=white:t=5[bordered]"

/-- Tail of the template_2 watermark overlay fragment (line 192). -/
def t2OverlayTail (idx : Nat) : List Char :=
  chrs "[" ++ natChars idx ++ chrs ":v]" ++ chrs "overlay=x=iw-overlay_w-10:y=ih-overlay_h-10[templated]"

/-- Tail of the template_2 missing-watermark pass-through fragment
(line 196). -/
def t2NullTail : List Char :=
  chrs "null[templated]"

/-! ### Subtitle path escaping (line 210)

The source embeds
`input_srt_path.replace('\\\\', '/').replace(':', '\\\\:')`
in the subtitles fragment: first every occurrence of the two-character
sequence backslash-backslash is replaced by `/` (left-to-right,
non-overlapping, as `str.replace` scans), then every colon is replaced by
backslash-backslash-colon. -/

/-- `str.replace('\\\\', '/')`: each (leftmost, non-overlapping)
double-backslash pair becomes `/`. -/
def replaceDblBackslash : List Char → List Char
  | [] => []
  | [c] => [c]
  | c1 :: c2 :: rest =>
    if c1 = '\\' ∧ c2 = '\\' then '/' :: replaceDblBackslash rest
    else c1 :: replaceDblBackslash (c2 :: rest)

/-- `str.replace(':', '\\\\:')`: each colon becomes two backslashes and a
colon. -/
def escapeColons : List Char → List Char
  | [] => []
  | c :: rest =>
    if c = ':' then '\\' :: '\\' :: ':' :: escapeColons rest
    else c :: escapeColons rest

/-- The full path transformation the source applies to the subtitle path
before embedding it. -/
def escapeSrtPath (p : List Char) : List Char :=
  escapeColons (replaceDblBackslash p)

/-- Tail of the subtitles fragment (line 210):
`subtitles=filename='<escaped path>':force_style='<style>'[subtitled]`. -/
def subtitleFragTail (srt fsty : List Char) : List Char :=
  chrs "subtitles=filename='" ++ escapeSrtPath srt ++ chrs "':force_style='"
    ++ fsty ++ chrs "'[subtitled]"

/-- The `style_map` dict lookup (lines 204-208): a Python dict keyed by the
two style-name strings; `style_map.get` of anything else (including
non-string values) yields `None`. -/
def styleMap (v : JVal) : Option (List Char) :=
  if v = JVal.str (chrs "bold_white_box") then
    some (chrs "FontName=Arial,FontSize=24,PrimaryColour=&H00FFFFFF&,Bold=1,BorderStyle=3,OutlineColour=&H80000000&,BackColour=&H80000000&,MarginV=15")
  else if v = JVal.str (chrs "yellow_bold") then
    some (chrs "FontName=Arial,FontSize=24,PrimaryColour=&H0000FFFF&,Bold=1,BorderStyle=1,Outline=1,MarginV=15")
  else none

/-! ### The four stages (lines 142-214)

Each stage transforms the `BuildState` exactly as the corresponding block
of the source mutates the locals.  Branches of the source that only call
`logging.warning` leave the state unchanged and are folded into the
identity branch. -/

/-- Crop stage (lines 142-151).  Applies only when
`config.get('crop_mode') == 'center_crop'` and the source is landscape.
`int(input_height * (9/16))` is exact floor division: `9/16` is the dyadic
rational `0.5625`, represented exactly in binary floating point, and the
product with any realistic integer height is exact, so `int(...)`
truncation equals `height * 9 / 16` in natural division; likewise
`int((input_width - target_width) / 2)` is `(width - target_width) / 2`. -/
def cropStage (cfg : RenderConfig) (info : VideoInfo) (st : BuildState) : BuildState :=
  if cfg.crop_mode = some (JVal.str (chrs "center_crop")) ∧ info.height < info.width then
    let target_width := info.height * 9 / 16
    let offset_x := (info.width - target_width) / 2
    { st with
      filter_complex_parts := st.filter_complex_parts
        ++ [st.current_v_stream ++ cropFragTail target_width info.height offset_x],
      current_v_stream := chrs "[cropped]" }
  else st

/-- Zoom stage (lines 154-161).  Applies when `config.get('zoom_effect')`
is truthy. -/
def zoomStage (cfg : RenderConfig) (st : BuildState) : BuildState :=
  if truthyOpt cfg.zoom_effect then
    { st with
      filter_complex_parts := st.filter_complex_parts
        ++ [st.current_v_stream ++ zoomFragTail],
      current_v_stream := chrs "[zoomed]" }
  else st

/-- Template stage (lines 163-199).  The outer `if template_id:` is the
truthiness test of the source; the two recognised ids then compare equal
as strings. -/
def templateStage (cfg : RenderConfig) (fs : FsState) (st : BuildState) : BuildState :=
  match cfg.template_id with
  | none => st
  | some v =>
    if truthy v then
      if v = JVal.str (chrs "template_1") then
        let st1 :=
          if fs.brand_bar_exists then
            { st with
              inputs_args := st.inputs_args ++ [chrs "-i", chrs "assets/brand_bar.png"],
              filter_complex_parts := st.filter_complex_parts
                ++ [st.current_v_stream ++ t1OverlayTail st.next_input_idx],
              current_v_stream := chrs "[bar_applied]",
              next_input_idx := st.next_input_idx + 1 }
          else
            { st with
              filter_complex_parts := st.filter_complex_parts
                ++ [st.current_v_stream ++ t1DrawboxTail],
              current_v_stream := chrs "[bar_applied]" }
        { st1 with
          filter_complex_parts := st1.filter_complex_parts
            ++ [st1.current_v_stream ++ t1DrawtextTail],
          current_v_stream := chrs "[templated]" }
      else if v = JVal.str (chrs "template_2") then
        let st1 :=
          { st with
            filter_complex_parts := st.filter_complex_parts
              ++ [st.current_v_stream ++ t2BorderTail],
            current_v_stream := chrs "[bordered]" }
        if fs.watermark_exists then
          { st1 with
            inputs_args := st1.inputs_args ++ [chrs "-i", chrs "assets/watermark_logo.png"],
            filter_complex_parts := st1.filter_complex_parts
              ++ [st1.current_v_stream ++ t2OverlayTail st1.next_input_idx],
            current_v_stream := chrs "[templated]",
            next_input_idx := st1.next_input_idx + 1 }
        else
          { st1 with
            filter_complex_parts := st1.filter_complex_parts
              ++ [st1.current_v_stream ++ t2NullTail],
            current_v_stream := chrs "[templated]" }
      else st
    else st

/-- Subtitle stage (lines 201-214).  `config.get('subtitle_style')` must be
truthy and then resolve in `style_map`. -/
def subtitleStage (cfg : RenderConfig) (srt : List Char) (st : BuildState) : BuildState :=
  match cfg.subtitle_style with
  | none => st
  | some v =>
    if truthy v then
      match styleMap v with
      | some fsty =>
        { st with
          filter_complex_parts := st.filter_complex_parts
            ++ [st.current_v_stream ++ subtitleFragTail srt fsty],
          current_v_stream := chrs "[subtitled]" }
      | none => st
    else st

/-- Initial locals (lines 131-139): primary input at slot 0, no fragments,
the decoded primary video stream as the current handle, next free input
slot 1. -/
def initState (vp : List Char) : BuildState :=
  { inputs_args := [chrs "-i", vp]
    filter_complex_parts := []
    current_v_stream := chrs "[0:v]"
    next_input_idx := 1 }

/-- State after all four stages have run in the source's fixed order. -/
def finalState (cfg : RenderConfig) (info : VideoInfo) (fs : FsState)
    (vp srt : List Char) : BuildState :=
  subtitleStage cfg srt (templateStage cfg fs (zoomStage cfg (cropStage cfg info (initState vp))))

/-- Python `str()` of the JSON scalar stored under `output_format`, as the
f-string building `output_path` renders it; the decimal rendering of a
number is abstracted (no claim depends on numeric formats here). -/
def pyFormatChars : Option JVal → List Char
  | none => chrs "mp4"
  | some JVal.null => chrs "None"
  | some (JVal.bool true) => chrs "True"
  | some (JVal.bool false) => chrs "False"
  | some (JVal.num q) => (toString q).toList
  | some (JVal.str s) => s

/-- `os.path.join(OUTPUTS_DIR, f"final_render.{...}")` (line 135), POSIX
join. -/
def outputPath (cfg : RenderConfig) : List Char :=
  chrs "outputs/final_render." ++ pyFormatChars cfg.output_format

/-- The fixed `output_options_args` (lines 230-239), ending with the output
path. -/
def outputOptionsArgs (cfg : RenderConfig) : List (List Char) :=
  [chrs "-c:v", chrs "libx264", chrs "-pix_fmt", chrs "yuv420p",
   chrs "-preset", chrs "medium", chrs "-crf", chrs "23", chrs "-c:a",
   chrs "aac", chrs "-b:a", chrs "128k", chrs "-y", outputPath cfg]

/-- Finalization (lines 216-243): if any fragments were emitted, join them
with `;` into one `-filter_complex` argument, map the current video label
and the optional audio selector `0:a?`; otherwise map the bare decoded
streams directly, with no filter-graph argument at all. -/
def buildFfmpegCommand (cfg : RenderConfig) (info : VideoInfo) (fs : FsState)
    (vp srt : List Char) : List (List Char) :=
  if (finalState cfg info fs vp srt).filter_complex_parts ≠ [] then
    [chrs "ffmpeg"] ++ (finalState cfg info fs vp srt).inputs_args
      ++ [chrs "-filter_complex",
          List.intercalate (chrs ";") (finalState cfg info fs vp srt).filter_complex_parts]
      ++ [chrs "-map", (finalState cfg info fs vp srt).current_v_stream, chrs "-map", chrs "0:a?"]
      ++ outputOptionsArgs cfg
  else
    [chrs "ffmpeg"] ++ (finalState cfg info fs vp srt).inputs_args
      ++ [chrs "-map", chrs "[0:v]", chrs "-map", chrs "[0:a]"]
      ++ outputOptionsArgs cfg

/-! ### Stage characterizations

Each stage function is proved equal to an explicit record update built
from small `…Delta`/`…Label` functions of the incoming stream label (and
input-slot counter).  These normal forms drive all the claim proofs. -/

/-- The crop stage's guard (line 142). -/
abbrev cropApplies (cfg : RenderConfig) (info : VideoInfo) : Prop :=
  cfg.crop_mode = some (JVal.str (chrs "center_crop")) ∧ info.height < info.width

/-- `template_id` equals the string `"template_1"`. -/
abbrev isT1 (cfg : RenderConfig) : Prop :=
  cfg.template_id = some (JVal.str (chrs "template_1"))

/-- `template_id` equals the string `"template_2"`. -/
abbrev isT2 (cfg : RenderConfig) : Prop :=
  cfg.template_id = some (JVal.str (chrs "template_2"))

/-- `subtitle_style` is one of the two keys of `style_map`. -/
abbrev subtitleRecognized (cfg : RenderConfig) : Prop :=
  cfg.subtitle_style = some (JVal.str (chrs "bold_white_box"))
  ∨ cfg.subtitle_style = some (JVal.str (chrs "yellow_bold"))

/-- Fragments the crop stage appends when the current label is `c`. -/
def cropDelta (cfg : RenderConfig) (info : VideoInfo) (c : List Char) : List (List Char) :=
  if cropApplies cfg info then
    [c ++ cropFragTail (info.height * 9 / 16) info.height
      ((info.width - info.height * 9 / 16) / 2)]
  else []

/-- Label after the crop stage. -/
def cropLabel (cfg : RenderConfig) (info : VideoInfo) (c : List Char) : List Char :=
  if cropApplies cfg info then chrs "[cropped]" else c

/-- Fragments the zoom stage appends. -/
def zoomDelta (cfg : RenderConfig) (c : List Char) : List (List Char) :=
  if truthyOpt cfg.zoom_effect then [c ++ zoomFragTail] else []

/-- Label after the zoom stage. -/
def zoomLabel (cfg : RenderConfig) (c : List Char) : List Char :=
  if truthyOpt cfg.zoom_effect then chrs "[zoomed]" else c

/-- Auxiliary input-file arguments the template stage appends. -/
def tmplInputs (cfg : RenderConfig) (fs : FsState) : List (List Char) :=
  if isT1 cfg ∧ fs.brand_bar_exists = true then [chrs "-i", chrs "assets/brand_bar.png"]
  else if isT2 cfg ∧ fs.watermark_exists = true then [chrs "-i", chrs "assets/watermark_logo.png"]
  else []

/-- Number of auxiliary input slots the template stage allocates. -/
def tmplCount (cfg : RenderConfig) (fs : FsState) : Nat :=
  if (isT1 cfg ∧ fs.brand_bar_exists = true) ∨ (isT2 cfg ∧ fs.watermark_exists = true) then 1
  else 0

/-- Fragments the template stage appends when the current label is `c` and
the next free input slot is `n`. -/
def tmplDelta (cfg : RenderConfig) (fs : FsState) (c : List Char) (n : Nat) : List (List Char) :=
  if isT1 cfg then
    (if fs.brand_bar_exists then [c ++ t1OverlayTail n] else [c ++ t1DrawboxTail])
      ++ [chrs "[bar_applied]" ++ t1DrawtextTail]
  else if isT2 cfg then
    [c ++ t2BorderTail]
      ++ (if fs.watermark_exists then [chrs "[bordered]" ++ t2OverlayTail n]
          else [chrs "[bordered]" ++ t2NullTail])
  else []

/-- Label after the template stage. -/
def tmplLabel (cfg : RenderConfig) (c : List Char) : List Char :=
  if isT1 cfg ∨ isT2 cfg then chrs "[templated]" else c

/-- Fragments the subtitle stage appends. -/
def subDelta (cfg : RenderConfig) (srt c : List Char) : List (List Char) :=
  if cfg.subtitle_style = some (JVal.str (chrs "bold_white_box")) then
    [c ++ subtitleFragTail srt (chrs "FontName=Arial,FontSize=24,PrimaryColour=&H00FFFFFF&,Bold=1,BorderStyle=3,OutlineColour=&H80000000&,BackColour=&H80000000&,MarginV=15")]
  else if cfg.subtitle_style = some (JVal.str (chrs "yellow_bold")) then
    [c ++ subtitleFragTail srt (chrs "FontName=Arial,FontSize=24,PrimaryColour=&H0000FFFF&,Bold=1,BorderStyle=1,Outline=1,MarginV=15")]
  else []

/-- Label after the subtitle stage. -/
def subLabel (cfg : RenderConfig) (c : List Char) : List Char :=
  if subtitleRecognized cfg then chrs "[subtitled]" else c

theorem cropStage_eq (cfg : RenderConfig) (info : VideoInfo) (st : BuildState) :
    cropStage cfg info st =
      { st with
        filter_complex_parts := st.filter_complex_parts
          ++ cropDelta cfg info st.current_v_stream,
        current_v_stream := cropLabel cfg info st.current_v_stream } := by
  unfold cropStage cropDelta cropLabel
  split <;> simp

theorem zoomStage_eq (cfg : RenderConfig) (st : BuildState) :
    zoomStage cfg st =
      { st with
        filter_complex_parts := st.filter_complex_parts
          ++ zoomDelta cfg st.current_v_stream,
        current_v_stream := zoomLabel cfg st.current_v_stream } := by
  unfold zoomStage zoomDelta zoomLabel
  split <;> simp

theorem templateStage_eq (cfg : RenderConfig) (fs : FsState) (st : BuildState) :
    templateStage cfg fs st =
      { inputs_args := st.inputs_args ++ tmplInputs cfg fs,
        filter_complex_parts := st.filter_complex_parts
          ++ tmplDelta cfg fs st.current_v_stream st.next_input_idx,
        current_v_stream := tmplLabel cfg st.current_v_stream,
        next_input_idx := st.next_input_idx + tmplCount cfg fs } := by
  obtain ⟨cm, ze, ti, ss, onf⟩ := cfg
  unfold templateStage tmplInputs tmplDelta tmplLabel tmplCount
  have hne12 : chrs "template_1" ≠ chrs "template_2" := by decide
  cases ti with
  | none => simp [isT1, isT2]
  | some v =>
    by_cases h1 : v = JVal.str (chrs "template_1")
    · subst h1
      have ht : truthy (JVal.str (chrs "template_1")) = true := by decide
      cases hb : fs.brand_bar_exists <;>
        simp [ht, hb, isT1, isT2, hne12]
    · by_cases h2 : v = JVal.str (chrs "template_2")
      · subst h2
        have ht : truthy (JVal.str (chrs "template_2")) = true := by decide
        cases hw : fs.watermark_exists <;>
          simp [ht, hw, h1, isT1, isT2, hne12]
      · cases htv : truthy v <;> simp [h1, h2, htv, isT1, isT2]

theorem subtitleStage_eq (cfg : RenderConfig) (srt : List Char) (st : BuildState) :
    subtitleStage cfg srt st =
      { st with
        filter_complex_parts := st.filter_complex_parts
          ++ subDelta cfg srt st.current_v_stream,
        current_v_stream := subLabel cfg st.current_v_stream } := by
  obtain ⟨cm, ze, ti, ss, onf⟩ := cfg
  unfold subtitleStage subDelta subLabel styleMap
  have hb1 : chrs "bold_white_box" ≠ [] := by decide
  have hy1 : chrs "yellow_bold" ≠ [] := by decide
  cases ss with
  | none => simp [subtitleRecognized]
  | some v =>
    by_cases h1 : v = JVal.str (chrs "bold_white_box")
    · subst h1; simp [subtitleRecognized, truthy, hb1]
    · by_cases h2 : v = JVal.str (chrs "yellow_bold")
      · subst h2; simp [h1, subtitleRecognized, truthy, hy1]
      · cases htv : truthy v <;>
          simp [h1, h2, htv, subtitleRecognized]

/-- Initial decoded-stream label `[0:v]`. -/
def lbl0 : List Char := chrs "[0:v]"

/-- Current label after the crop stage has run on the initial state. -/
def lbl1 (cfg : RenderConfig) (info : VideoInfo) : List Char := cropLabel cfg info lbl0

/-- Current label after the zoom stage. -/
def lbl2 (cfg : RenderConfig) (info : VideoInfo) : List Char := zoomLabel cfg (lbl1 cfg info)

/-- Current label after the template stage. -/
def lbl3 (cfg : RenderConfig) (info : VideoInfo) : List Char := tmplLabel cfg (lbl2 cfg info)

/-- Current label after the subtitle stage: the final video map label. -/
def lbl4 (cfg : RenderConfig) (info : VideoInfo) : List Char := subLabel cfg (lbl3 cfg info)

/-- The full ordered fragment list the compiler emits. -/
def allFrags (cfg : RenderConfig) (info : VideoInfo) (fs : FsState) (srt : List Char) :
    List (List Char) :=
  cropDelta cfg info lbl0 ++ zoomDelta cfg (lbl1 cfg info)
    ++ tmplDelta cfg fs (lbl2 cfg info) 1 ++ subDelta cfg srt (lbl3 cfg info)

/-- Normal form of the state after all four stages. -/
theorem finalState_eq (cfg : RenderConfig) (info : VideoInfo) (fs : FsState)
    (vp srt : List Char) :
    finalState cfg info fs vp srt =
      { inputs_args := [chrs "-i", vp] ++ tmplInputs cfg fs,
        filter_complex_parts := allFrags cfg info fs srt,
        current_v_stream := lbl4 cfg info,
        next_input_idx := 1 + tmplCount cfg fs } := by
  unfold finalState allFrags lbl4 lbl3 lbl2 lbl1 lbl0
  rw [cropStage_eq, zoomStage_eq, templateStage_eq, subtitleStage_eq]
  simp [initState, Nat.add_comm]

/-! ### List prefix/suffix helpers -/

theorem suffix_trans_append (a b c : List Char) (h : c <:+ b) : c <:+ a ++ b :=
  h.trans (List.suffix_append a b)

theorem prefix_of_append_of_le (a b c : List Char) (hlen : c.length ≤ a.length)
    (h : c <+: a ++ b) : c <+: a := by
  obtain ⟨t, ht⟩ := h
  have h2 : List.take c.length (a ++ b) = c := by
    rw [← ht]
    simp
  rw [List.take_append_eq_append_take, Nat.sub_eq_zero_of_le hlen, List.take_zero,
    List.append_nil] at h2
  exact List.prefix_iff_eq_take.mpr h2.symm

theorem suffix_of_append_of_le (a b c : List Char) (hlen : c.length ≤ b.length)
    (h : c <:+ a ++ b) : c <:+ b := by
  have h1 : c.reverse <+: b.reverse ++ a.reverse := by
    rw [← List.reverse_append]
    exact List.reverse_prefix.mpr h
  have h2 : c.reverse <+: b.reverse :=
    prefix_of_append_of_le _ _ _ (by simpa using hlen) h1
  simpa using List.reverse_prefix.mp h2

theorem not_suffix_of_append (a G s : List Char) (hlen : s.length ≤ G.length)
    (hG : ¬ s <:+ G) : ¬ s <:+ a ++ G :=
  fun h => hG (suffix_of_append_of_le a G s hlen h)

/-! ### The stream-handle threading invariant (claim C7's data) -/

/-- `l` is a bracketed stream label `[name]` with a nonempty name. -/
def bracketedLabel (l : List Char) : Prop :=
  ∃ nm, nm ≠ [] ∧ l = '[' :: (nm ++ [']'])

/-- `Threaded l0 fs lend`: the fragment list `fs` forms a single chain of
stream handles from label `l0` to label `lend`: each fragment consumes the
handle current when it was emitted (the fragment text starts with that
label) and installs a fresh bracketed output label (the fragment text ends
with it) that the rest of the chain continues from. -/
inductive Threaded : List Char → List (List Char) → List Char → Prop
  | nil (l : List Char) : Threaded l [] l
  | cons (l0 l1 lend f : List Char) (fs : List (List Char))
      (hpre : l0 <+: f) (hsuf : l1 <:+ f) (hbr : bracketedLabel l1)
      (ht : Threaded l1 fs lend) : Threaded l0 (f :: fs) lend

theorem Threaded.snoc (l0 l lnew f : List Char) (fs : List (List Char))
    (h : Threaded l0 fs l) (hpre : l <+: f) (hsuf : lnew <:+ f)
    (hbr : bracketedLabel lnew) : Threaded l0 (fs ++ [f]) lnew := by
  induction h with
  | nil l => exact Threaded.cons _ _ _ _ _ hpre hsuf hbr (Threaded.nil _)
  | cons a b c g gs hp hs hb ht ih => exact Threaded.cons _ _ _ _ _ hp hs hb (ih hpre)

theorem Threaded.append (l0 l1 l2 : List Char) (fs1 fs2 : List (List Char))
    (h1 : Threaded l0 fs1 l1) (h2 : Threaded l1 fs2 l2) :
    Threaded l0 (fs1 ++ fs2) l2 := by
  induction h1 with
  | nil l => exact h2
  | cons a b c g gs hp hs hb ht ih => exact Threaded.cons _ _ _ _ _ hp hs hb (ih h2)

theorem Threaded.last_suffix (l0 lend : List Char) (fs : List (List Char))
    (h : Threaded l0 fs lend) :
    ∀ f, fs.getLast? = some f → lend <:+ f := by
  induction h with
  | nil l => intro f hf; simp at hf
  | cons a b c g gs hp hs hb ht ih =>
    intro f hf
    cases gs with
    | nil =>
      cases ht
      simp at hf
      subst hf
      exact hs
    | cons g2 gs2 =>
      rw [List.getLast?_cons_cons] at hf
      exact ih f hf

/-! Threading of each stage's emitted fragments. -/

theorem threaded_cropDelta (cfg : RenderConfig) (info : VideoInfo) (c : List Char) :
    Threaded c (cropDelta cfg info c) (cropLabel cfg info c) := by
  unfold cropDelta cropLabel
  split_ifs
  · refine Threaded.cons _ _ _ _ _ (List.prefix_append c _) ?_ ?_ (Threaded.nil _)
    · unfold cropFragTail
      simp only [← List.append_assoc]
      exact suffix_trans_append _ _ _ (by decide)
    · exact ⟨chrs "cropped", by decide, by decide⟩
  · exact Threaded.nil c

theorem threaded_zoomDelta (cfg : RenderConfig) (c : List Char) :
    Threaded c (zoomDelta cfg c) (zoomLabel cfg c) := by
  unfold zoomDelta zoomLabel
  split_ifs
  · refine Threaded.cons _ _ _ _ _ (List.prefix_append c _) ?_ ?_ (Threaded.nil _)
    · exact suffix_trans_append _ _ _ (by decide)
    · exact ⟨chrs "zoomed", by decide, by decide⟩
  · exact Threaded.nil c

theorem threaded_tmplDelta (cfg : RenderConfig) (fs : FsState) (c : List Char) (n : Nat) :
    Threaded c (tmplDelta cfg fs c n) (tmplLabel cfg c) := by
  unfold tmplDelta tmplLabel
  by_cases h1 : isT1 cfg
  · rw [if_pos h1, if_pos (Or.inl h1)]
    have hdt : Threaded (chrs "[bar_applied]")
        [chrs "[bar_applied]" ++ t1DrawtextTail] (chrs "[templated]") := by
      refine Threaded.cons _ _ _ _ _ (List.prefix_append _ _) ?_ ?_ (Threaded.nil _)
      · exact suffix_trans_append _ _ _ (by decide)
      · exact ⟨chrs "templated", by decide, by decide⟩
    split
    · refine Threaded.append _ _ _ _ _ ?_ hdt
      refine Threaded.cons _ _ _ _ _ (List.prefix_append c _) ?_ ?_ (Threaded.nil _)
      · unfold t1OverlayTail
        simp only [← List.append_assoc]
        exact suffix_trans_append _ _ _ (by decide)
      · exact ⟨chrs "bar_applied", by decide, by decide⟩
    · refine Threaded.append _ _ _ _ _ ?_ hdt
      refine Threaded.cons _ _ _ _ _ (List.prefix_append c _) ?_ ?_ (Threaded.nil _)
      · exact suffix_trans_append _ _ _ (by decide)
      · exact ⟨chrs "bar_applied", by decide, by decide⟩
  · rw [if_neg h1]
    by_cases h2 : isT2 cfg
    · rw [if_pos h2, if_pos (Or.inr h2)]
      have hbd : Threaded c [c ++ t2BorderTail] (chrs "[bordered]") := by
        refine Threaded.cons _ _ _ _ _ (List.prefix_append c _) ?_ ?_ (Threaded.nil _)
        · exact suffix_trans_append _ _ _ (by decide)
        · exact ⟨chrs "bordered", by decide, by decide⟩
      refine Threaded.append _ _ _ _ _ hbd ?_
      split
      · refine Threaded.cons _ _ _ _ _ (List.prefix_append _ _) ?_ ?_ (Threaded.nil _)
        · unfold t2OverlayTail
          simp only [← List.append_assoc]
          exact suffix_trans_append _ _ _ (by decide)
        · exact ⟨chrs "templated", by decide, by decide⟩
      · refine Threaded.cons _ _ _ _ _ (List.prefix_append _ _) ?_ ?_ (Threaded.nil _)
        · exact suffix_trans_append _ _ _ (by decide)
        · exact ⟨chrs "templated", by decide, by decide⟩
    · rw [if_neg h2, if_neg (by tauto)]
      exact Threaded.nil c

theorem threaded_subDelta (cfg : RenderConfig) (srt c : List Char) :
    Threaded c (subDelta cfg srt c) (subLabel cfg c) := by
  have hfrag : ∀ fsty : List Char,
      Threaded c [c ++ subtitleFragTail srt fsty] (chrs "[subtitled]") := by
    intro fsty
    refine Threaded.cons _ _ _ _ _ (List.prefix_append c _) ?_ ?_ (Threaded.nil _)
    · unfold subtitleFragTail
      simp only [← List.append_assoc]
      exact suffix_trans_append _ _ _ (by decide)
    · exact ⟨chrs "subtitled", by decide, by decide⟩
  unfold subDelta subLabel
  by_cases h1 : cfg.subtitle_style = some (JVal.str (chrs "bold_white_box"))
  · rw [if_pos h1, if_pos (Or.inl h1)]
    exact hfrag _
  · rw [if_neg h1]
    by_cases h2 : cfg.subtitle_style = some (JVal.str (chrs "yellow_bold"))
    · rw [if_pos h2, if_pos (Or.inr h2)]
      exact hfrag _
    · rw [if_neg h2, if_neg (by tauto)]
      exact Threaded.nil c

/-- The complete emitted fragment list is a single threaded chain from the
decoded stream label to the final video map label. -/
theorem threaded_allFrags (cfg : RenderConfig) (info : VideoInfo) (fs : FsState)
    (srt : List Char) :
    Threaded lbl0 (allFrags cfg info fs srt) (lbl4 cfg info) := by
  unfold allFrags
  simp only [List.append_assoc]
  refine Threaded.append _ _ _ _ _ (threaded_cropDelta cfg info lbl0) ?_
  refine Threaded.append _ _ _ _ _ (threaded_zoomDelta cfg (lbl1 cfg info)) ?_
  refine Threaded.append _ _ _ _ _ (threaded_tmplDelta cfg fs (lbl2 cfg info) 1) ?_
  exact threaded_subDelta cfg srt (lbl3 cfg info)

/-! ### Range of the stream labels -/

theorem cropLabel_cases (cfg : RenderConfig) (info : VideoInfo) (c : List Char) :
    cropLabel cfg info c = chrs "[cropped]" ∨ cropLabel cfg info c = c := by
  unfold cropLabel
  split_ifs <;> simp

theorem zoomLabel_cases (cfg : RenderConfig) (c : List Char) :
    zoomLabel cfg c = chrs "[zoomed]" ∨ zoomLabel cfg c = c := by
  unfold zoomLabel
  split_ifs <;> simp

theorem tmplLabel_cases (cfg : RenderConfig) (c : List Char) :
    tmplLabel cfg c = chrs "[templated]" ∨ tmplLabel cfg c = c := by
  unfold tmplLabel
  split_ifs <;> simp

theorem subLabel_cases (cfg : RenderConfig) (c : List Char) :
    subLabel cfg c = chrs "[subtitled]" ∨ subLabel cfg c = c := by
  unfold subLabel
  split_ifs <;> simp

theorem lbl2_cases (cfg : RenderConfig) (info : VideoInfo) :
    lbl2 cfg info = chrs "[zoomed]" ∨ lbl2 cfg info = chrs "[cropped]"
    ∨ lbl2 cfg info = chrs "[0:v]" := by
  unfold lbl2 lbl1
  rcases zoomLabel_cases cfg (cropLabel cfg info lbl0) with h | h
  · exact Or.inl h
  · rcases cropLabel_cases cfg info lbl0 with h2 | h2 <;> rw [h, h2]
    · exact Or.inr (Or.inl rfl)
    · exact Or.inr (Or.inr rfl)

theorem lbl4_cases (cfg : RenderConfig) (info : VideoInfo) :
    lbl4 cfg info = chrs "[subtitled]" ∨ lbl4 cfg info = chrs "[templated]"
    ∨ lbl4 cfg info = chrs "[zoomed]" ∨ lbl4 cfg info = chrs "[cropped]"
    ∨ lbl4 cfg info = chrs "[0:v]" := by
  unfold lbl4 lbl3
  rcases subLabel_cases cfg (tmplLabel cfg (lbl2 cfg info)) with h | h
  · exact Or.inl h
  · rw [h]
    rcases tmplLabel_cases cfg (lbl2 cfg info) with h2 | h2
    · rw [h2]; exact Or.inr (Or.inl rfl)
    · rw [h2]
      rcases lbl2_cases cfg info with h3 | h3 | h3 <;> rw [h3]
      · exact Or.inr (Or.inr (Or.inl rfl))
      · exact Or.inr (Or.inr (Or.inr (Or.inl rfl)))
      · exact Or.inr (Or.inr (Or.inr (Or.inr rfl)))

/-- The final video map label never carries the optional-map marker `?`. -/
theorem lbl4_no_qmark (cfg : RenderConfig) (info : VideoInfo) :
    ('?' : Char) ∉ lbl4 cfg info := by
  rcases lbl4_cases cfg info with h | h | h | h | h <;> rw [h] <;> decide

/-! ### Field congruence of the stages (used for claim C9) -/

theorem cropStage_skip (cfg : RenderConfig) (info : VideoInfo) (st : BuildState)
    (h : ¬ cropApplies cfg info) : cropStage cfg info st = st := by
  unfold cropStage
  exact if_neg h

theorem zoomStage_congr (cfg1 cfg2 : RenderConfig) (st : BuildState)
    (h : cfg1.zoom_effect = cfg2.zoom_effect) : zoomStage cfg1 st = zoomStage cfg2 st := by
  unfold zoomStage
  rw [h]

theorem templateStage_congr (cfg1 cfg2 : RenderConfig) (fs : FsState) (st : BuildState)
    (h : cfg1.template_id = cfg2.template_id) :
    templateStage cfg1 fs st = templateStage cfg2 fs st := by
  unfold templateStage
  rw [h]

theorem subtitleStage_congr (cfg1 cfg2 : RenderConfig) (srt : List Char) (st : BuildState)
    (h : cfg1.subtitle_style = cfg2.subtitle_style) :
    subtitleStage cfg1 srt st = subtitleStage cfg2 srt st := by
  unfold subtitleStage
  rw [h]

/-! ### Properties of the subtitle-path escaping (claim C4) -/

/-- A path-separator character (POSIX or Windows). -/
def isPathSep (c : Char) : Bool := c == '/' || c == '\\'

/-- A character the ffmpeg filter-graph grammar treats as a delimiter
(chain/filter/argument separators, label brackets, the quote). -/
def isFilterDelim (c : Char) : Bool :=
  c == ';' || c == ',' || c == ':' || c == '[' || c == ']' || c == '\''

/-- The claim's notion of a fully escaped embedded path: scanning left to
right, a backslash escapes the character after it, and every separator or
delimiter character must be escaped that way. -/
def allSpecialsEscaped : List Char → Bool
  | [] => true
  | [c] => !(isPathSep c || isFilterDelim c)
  | c1 :: c2 :: rest =>
    if c1 = '\\' then allSpecialsEscaped rest
    else if isPathSep c1 || isFilterDelim c1 then false
    else allSpecialsEscaped (c2 :: rest)

/-- Every colon is immediately preceded by a backslash. -/
def colonEscaped : List Char → Bool
  | [] => true
  | [c] => c != ':'
  | c1 :: c2 :: rest =>
    if c1 = ':' then false
    else if c1 = '\\' ∧ c2 = ':' then colonEscaped rest
    else colonEscaped (c2 :: rest)

theorem escapeColons_head (p : List Char) (t : List Char) :
    escapeColons p ≠ ':' :: t := by
  cases p with
  | nil => simp [escapeColons]
  | cons c rest =>
    simp only [escapeColons]
    split_ifs with hc
    · intro h
      injection h with h1 h2
      exact absurd h1 (by decide)
    · intro h
      injection h with h1 h2
      exact hc h1

theorem colonEscaped_escapeColons (p : List Char) :
    colonEscaped (escapeColons p) = true := by
  induction p with
  | nil => rfl
  | cons c rest ih =>
    simp only [escapeColons]
    split_ifs with hc
    · have step : ∀ X : List Char,
          colonEscaped ('\\' :: '\\' :: ':' :: X) = colonEscaped X := by
        intro X
        rfl
      rw [step]
      exact ih
    · cases hY : escapeColons rest with
      | nil => simp [colonEscaped, hc]
      | cons d t =>
        have hd : d ≠ ':' := by
          intro hd
          rw [hd] at hY
          exact escapeColons_head rest t hY
        simp only [colonEscaped]
        rw [if_neg hc, if_neg (by intro hand; exact hd hand.2)]
        rw [← hY]
        exact ih

theorem count_semi_escapeColons (p : List Char) :
    (escapeColons p).count ';' = p.count ';' := by
  induction p with
  | nil => rfl
  | cons c rest ih =>
    simp only [escapeColons]
    split_ifs with hc
    · subst hc
      simp [List.count_cons, ih]
    · simp [List.count_cons, ih]

theorem count_semi_replaceDbl (p : List Char) :
    (replaceDblBackslash p).count ';' = p.count ';' := by
  induction p using replaceDblBackslash.induct with
  | case1 => rfl
  | case2 c => rfl
  | case3 c1 c2 rest hcc ih =>
    obtain ⟨h1, h2⟩ := hcc
    subst h1
    subst h2
    simp only [replaceDblBackslash, if_pos (And.intro rfl rfl)]
    simp [List.count_cons, ih]
  | case4 c1 c2 rest hcc ih =>
    simp only [replaceDblBackslash, if_neg hcc]
    simp [List.count_cons, ih]

/-! ### Which fragments can end in `[zoomed]` (claim C10) -/

theorem noZoom_cropFrag (c : List Char) (tw h ox : Nat) :
    ¬ chrs "[zoomed]" <:+ c ++ cropFragTail tw h ox := by
  have he : c ++ cropFragTail tw h ox
      = (c ++ (chrs "crop=w=" ++ natChars tw ++ chrs ":h=" ++ natChars h
          ++ chrs ":x=" ++ natChars ox)) ++ chrs ":y=0[cropped]" := by
    simp [cropFragTail, List.append_assoc]
  rw [he]
  exact not_suffix_of_append _ _ _ (by decide) (by decide)

theorem noZoom_t1Overlay (c : List Char) (n : Nat) :
    ¬ chrs "[zoomed]" <:+ c ++ t1OverlayTail n := by
  have he : c ++ t1OverlayTail n
      = (c ++ (chrs "[" ++ natChars n ++ chrs ":v]"))
          ++ chrs "overlay=x=0:y=ih-overlay_h[bar_applied]" := by
    simp [t1OverlayTail, List.append_assoc]
  rw [he]
  exact not_suffix_of_append _ _ _ (by decide) (by decide)

theorem noZoom_t2Overlay (c : List Char) (n : Nat) :
    ¬ chrs "[zoomed]" <:+ c ++ t2OverlayTail n := by
  have he : c ++ t2OverlayTail n
      = (c ++ (chrs "[" ++ natChars n ++ chrs ":v]"))
          ++ chrs "overlay=x=iw-overlay_w-10:y=ih-overlay_h-10[templated]" := by
    simp [t2OverlayTail, List.append_assoc]
  rw [he]
  exact not_suffix_of_append _ _ _ (by decide) (by decide)

theorem noZoom_subtitleFrag (c srt fsty : List Char) :
    ¬ chrs "[zoomed]" <:+ c ++ subtitleFragTail srt fsty := by
  have he : c ++ subtitleFragTail srt fsty
      = (c ++ (chrs "subtitles=filename='" ++ escapeSrtPath srt
          ++ chrs "':force_style='" ++ fsty)) ++ chrs "'[subtitled]" := by
    simp [subtitleFragTail, List.append_assoc]
  rw [he]
  exact not_suffix_of_append _ _ _ (by decide) (by decide)

/-! Inventories of each stage's possible fragments. -/

theorem mem_cropDelta (cfg : RenderConfig) (info : VideoInfo) (c f : List Char)
    (h : f ∈ cropDelta cfg info c) :
    ∃ tw hh ox, f = c ++ cropFragTail tw hh ox := by
  unfold cropDelta at h
  split_ifs at h
  · simp at h
    exact ⟨_, _, _, h⟩
  · simp at h

theorem mem_zoomDelta (cfg : RenderConfig) (c f : List Char)
    (h : f ∈ zoomDelta cfg c) : f = c ++ zoomFragTail := by
  unfold zoomDelta at h
  split_ifs at h <;> simp at h
  exact h

theorem mem_tmplDelta (cfg : RenderConfig) (fs : FsState) (c f : List Char) (n : Nat)
    (h : f ∈ tmplDelta cfg fs c n) :
    f = c ++ t1OverlayTail n ∨ f = c ++ t1DrawboxTail
    ∨ f = chrs "[bar_applied]" ++ t1DrawtextTail
    ∨ f = c ++ t2BorderTail
    ∨ f = chrs "[bordered]" ++ t2OverlayTail n
    ∨ f = chrs "[bordered]" ++ t2NullTail := by
  unfold tmplDelta at h
  split_ifs at h <;> simp at h <;> tauto

theorem mem_subDelta (cfg : RenderConfig) (srt c f : List Char)
    (h : f ∈ subDelta cfg srt c) :
    ∃ fsty, f = c ++ subtitleFragTail srt fsty := by
  unfold subDelta at h
  split_ifs at h <;> simp at h
  · exact ⟨_, h⟩
  · exact ⟨_, h⟩

/-- No fragment emitted by the crop, template, or subtitle stages ends in
the zoom stage's output label. -/
theorem noZoom_other_deltas (cfg : RenderConfig) (info : VideoInfo) (fs : FsState)
    (srt c1 c2 c3 : List Char) (n : Nat) (f : List Char)
    (h : f ∈ cropDelta cfg info c1 ∨ f ∈ tmplDelta cfg fs c2 n ∨ f ∈ subDelta cfg srt c3) :
    ¬ chrs "[zoomed]" <:+ f := by
  rcases h with h | h | h
  · obtain ⟨tw, hh, ox, rfl⟩ := mem_cropDelta cfg info c1 f h
    exact noZoom_cropFrag _ _ _ _
  · rcases mem_tmplDelta cfg fs c2 f n h with rfl | rfl | rfl | rfl | rfl | rfl
    · exact noZoom_t1Overlay _ _
    · exact not_suffix_of_append _ _ _ (by decide) (by decide)
    · exact not_suffix_of_append _ _ _ (by decide) (by decide)
    · exact not_suffix_of_append _ _ _ (by decide) (by decide)
    · exact noZoom_t2Overlay _ _
    · exact not_suffix_of_append _ _ _ (by decide) (by decide)
  · obtain ⟨fsty, rfl⟩ := mem_subDelta cfg srt c3 f h
    exact noZoom_subtitleFrag _ _ _

/-- The intermediate state right before the template stage runs. -/
def midState (cfg : RenderConfig) (info : VideoInfo) (vp : List Char) : BuildState :=
  zoomStage cfg (cropStage cfg info (initState vp))

theorem midState_eq (cfg : RenderConfig) (info : VideoInfo) (vp : List Char) :
    midState cfg info vp =
      { inputs_args := [chrs "-i", vp],
        filter_complex_parts := cropDelta cfg info lbl0 ++ zoomDelta cfg (lbl1 cfg info),
        current_v_stream := lbl2 cfg info,
        next_input_idx := 1 } := by
  unfold midState lbl2 lbl1 lbl0
  rw [cropStage_eq, zoomStage_eq]
  simp [initState]

/-! ### Concrete configurations used by witnesses and counterexamples -/

/-- Config requesting only `center_crop`. -/
def cfgCC : RenderConfig :=
  ⟨some (JVal.str (chrs "center_crop")), none, none, none, none⟩

/-- Empty config: no style option present. -/
def cfgEmpty : RenderConfig := ⟨none, none, none, none, none⟩

/-- Config selecting only `template_1`. -/
def cfgT1 : RenderConfig :=
  ⟨none, none, some (JVal.str (chrs "template_1")), none, none⟩

/-- Config selecting only `template_2`. -/
def cfgT2 : RenderConfig :=
  ⟨none, none, some (JVal.str (chrs "template_2")), none, none⟩

/-- Config selecting only the `bold_white_box` subtitle style. -/
def cfgSub : RenderConfig :=
  ⟨none, none, none, some (JVal.str (chrs "bold_white_box")), none⟩

/-- Config enabling only the zoom effect. -/
def cfgZoom : RenderConfig := ⟨none, some (JVal.bool true), none, none, none⟩

/-! ## Claims -/

/-- C1 (amended): `build_ffmpeg_command` never fails at all — for every
config (unsupported or absent style values included) and every metadata
(structurally invalid values included) it returns one complete command
plan: `ffmpeg`, the input arguments, an optional single filter-graph
argument, the video and audio maps, and the fixed output options ending in
the output path.  There is no `CompilationError` anywhere in the code. -/
theorem c1_total_plan_amended (cfg : RenderConfig) (info : VideoInfo) (fs : FsState)
    (vp srt : List Char) :
    ∃ fargs v a,
      (fargs = [] ∨ ∃ g, fargs = [chrs "-filter_complex", g])
      ∧ buildFfmpegCommand cfg info fs vp srt
          = [chrs "ffmpeg"] ++ (finalState cfg info fs vp srt).inputs_args ++ fargs
            ++ [chrs "-map", v, chrs "-map", a] ++ outputOptionsArgs cfg := by
  unfold buildFfmpegCommand
  split_ifs with h
  · exact ⟨[chrs "-filter_complex",
        List.intercalate (chrs ";") (finalState cfg info fs vp srt).filter_complex_parts],
      (finalState cfg info fs vp srt).current_v_stream, chrs "0:a?",
      Or.inr ⟨_, rfl⟩, by simp [List.append_assoc]⟩
  · exact ⟨[], chrs "[0:v]", chrs "[0:a]", Or.inl rfl, by simp [List.append_assoc]⟩

/-- C1 counterexample: the claim says compilation fails (with a typed
`CompilationError`) whenever the metadata is structurally invalid.  At
width = 0 and height = 0 — non-positive geometry — with `center_crop`
requested, the compiler does not fail: it returns the full direct-mapping
command plan. -/
theorem c1_invalid_metadata_cex :
    buildFfmpegCommand cfgCC ⟨0, 0, 0⟩ ⟨false, false⟩ (chrs "in.mp4") (chrs "sub.srt")
      = [chrs "ffmpeg", chrs "-i", chrs "in.mp4", chrs "-map", chrs "[0:v]", chrs "-map",
         chrs "[0:a]", chrs "-c:v", chrs "libx264", chrs "-pix_fmt", chrs "yuv420p",
         chrs "-preset", chrs "medium", chrs "-crf", chrs "23", chrs "-c:a", chrs "aac",
         chrs "-b:a", chrs "128k", chrs "-y", chrs "outputs/final_render.mp4"] := by
  decide

/-- C2 (amended): for landscape metadata with `center_crop`, the emitted
crop fragment is the first fragment and carries crop width
`int(height * 9/16)` — the FLOOR of `height * 9/16`, not its rounding —
and horizontal offset `floor((width - crop_width) / 2)`; both values are
interpolated into the fragment text. -/
theorem c2_center_crop_floor (cfg : RenderConfig) (info : VideoInfo) (fs : FsState)
    (vp srt : List Char)
    (hc : cfg.crop_mode = some (JVal.str (chrs "center_crop")))
    (hl : info.height < info.width) :
    (∃ rest, (finalState cfg info fs vp srt).filter_complex_parts
        = (chrs "[0:v]" ++ cropFragTail (info.height * 9 / 16) info.height
            ((info.width - info.height * 9 / 16) / 2)) :: rest)
    ∧ (info.height * 9 / 16 : ℕ) = ⌊((info.height : ℚ) * 9) / 16⌋₊
    ∧ ((info.width - info.height * 9 / 16) / 2 : ℕ)
        = ⌊((info.width : ℚ) - ((info.height * 9 / 16 : ℕ) : ℚ)) / 2⌋₊ := by
  refine ⟨?_, ?_, ?_⟩
  · rw [finalState_eq]
    refine ⟨zoomDelta cfg (lbl1 cfg info) ++ tmplDelta cfg fs (lbl2 cfg info) 1
        ++ subDelta cfg srt (lbl3 cfg info), ?_⟩
    simp only []
    unfold allFrags cropDelta
    rw [if_pos ⟨hc, hl⟩]
    simp [lbl0, List.append_assoc]
  · have hcast : ((info.height : ℚ) * 9) / 16
        = ((info.height * 9 : ℕ) : ℚ) / ((16 : ℕ) : ℚ) := by
      push_cast
      ring
    rw [hcast, Nat.floor_div_eq_div]
  · have hle : info.height * 9 / 16 ≤ info.width := by
      calc info.height * 9 / 16 ≤ info.height * 16 / 16 :=
            Nat.div_le_div_right (Nat.mul_le_mul_left _ (by norm_num))
        _ = info.height := Nat.mul_div_cancel info.height (by norm_num)
        _ ≤ info.width := le_of_lt hl
    have hcast : ((info.width : ℚ) - ((info.height * 9 / 16 : ℕ) : ℚ)) / 2
        = ((info.width - info.height * 9 / 16 : ℕ) : ℚ) / ((2 : ℕ) : ℚ) := by
      rw [Nat.cast_sub hle]
      push_cast
      ring
    rw [hcast, Nat.floor_div_eq_div]

/-- C2 witness: at 1920x1080 the crop fragment leads the fragment list with
crop width 607 and offset 656, and both equal the floor formulas. -/
theorem c2_center_crop_floor_witness :
    (∃ rest, (finalState cfgCC ⟨1920, 1080, 0⟩ ⟨false, false⟩ (chrs "v.mp4")
          (chrs "s.srt")).filter_complex_parts
        = (chrs "[0:v]" ++ cropFragTail (1080 * 9 / 16) 1080
            ((1920 - 1080 * 9 / 16) / 2)) :: rest)
    ∧ (1080 * 9 / 16 : ℕ) = ⌊((1080 : ℚ) * 9) / 16⌋₊
    ∧ ((1920 - 1080 * 9 / 16) / 2 : ℕ)
        = ⌊((1920 : ℚ) - ((1080 * 9 / 16 : ℕ) : ℚ)) / 2⌋₊ :=
  c2_center_crop_floor cfgCC ⟨1920, 1080, 0⟩ ⟨false, false⟩ (chrs "v.mp4") (chrs "s.srt")
    rfl (by decide)

/-- C2 counterexample: at 200x113 (landscape) the emitted crop width is
`int(113 * 9/16) = 63`, while the claim's `round(113 * 9/16)` is 64 — the
code floors, it does not round. -/
theorem c2_round_cex :
    (finalState cfgCC ⟨200, 113, 0⟩ ⟨false, false⟩ (chrs "v.mp4")
        (chrs "s.srt")).filter_complex_parts
      = [chrs "[0:v]crop=w=63:h=113:x=68:y=0[cropped]"]
    ∧ round ((113 : ℚ) * 9 / 16) = 64 := by
  constructor
  · decide
  · norm_num [round_eq]

/-- C3 (amended): the compiled plan's audio map is the optional selector
`0:a?` exactly when at least one filter fragment was emitted; on the
zero-fragment direct-mapping path the audio map is the plain (mandatory)
`[0:a]` selector with no optional marker.  The video map never carries the
optional marker `?` on either path. -/
theorem c3_audio_map_amended (cfg : RenderConfig) (info : VideoInfo) (fs : FsState)
    (vp srt : List Char) :
    ∃ front v a,
      buildFfmpegCommand cfg info fs vp srt
        = front ++ [chrs "-map", v, chrs "-map", a] ++ outputOptionsArgs cfg
      ∧ ((finalState cfg info fs vp srt).filter_complex_parts ≠ []
          → v = (finalState cfg info fs vp srt).current_v_stream ∧ a = chrs "0:a?")
      ∧ ((finalState cfg info fs vp srt).filter_complex_parts = []
          → v = chrs "[0:v]" ∧ a = chrs "[0:a]")
      ∧ ('?' : Char) ∉ v := by
  unfold buildFfmpegCommand
  split_ifs with h
  · refine ⟨[chrs "ffmpeg"] ++ (finalState cfg info fs vp srt).inputs_args
        ++ [chrs "-filter_complex",
            List.intercalate (chrs ";") (finalState cfg info fs vp srt).filter_complex_parts],
      (finalState cfg info fs vp srt).current_v_stream, chrs "0:a?",
      by simp [List.append_assoc], fun _ => ⟨rfl, rfl⟩, fun he => absurd he h, ?_⟩
    rw [finalState_eq]
    exact lbl4_no_qmark cfg info
  · exact ⟨[chrs "ffmpeg"] ++ (finalState cfg info fs vp srt).inputs_args,
      chrs "[0:v]", chrs "[0:a]", by simp [List.append_assoc],
      fun hne => absurd hne h, fun _ => ⟨rfl, rfl⟩, by decide⟩

/-- C3 witness: with only the zoom effect on, the plan's audio map is
`0:a?`; instantiating the amended statement at that config. -/
theorem c3_audio_map_amended_witness :
    ∃ front v a,
      buildFfmpegCommand cfgZoom ⟨1920, 1080, 10⟩ ⟨false, false⟩ (chrs "v.mp4") (chrs "s.srt")
        = front ++ [chrs "-map", v, chrs "-map", a] ++ outputOptionsArgs cfgZoom
      ∧ ((finalState cfgZoom ⟨1920, 1080, 10⟩ ⟨false, false⟩ (chrs "v.mp4")
            (chrs "s.srt")).filter_complex_parts ≠ []
          → v = (finalState cfgZoom ⟨1920, 1080, 10⟩ ⟨false, false⟩ (chrs "v.mp4")
              (chrs "s.srt")).current_v_stream ∧ a = chrs "0:a?")
      ∧ ((finalState cfgZoom ⟨1920, 1080, 10⟩ ⟨false, false⟩ (chrs "v.mp4")
            (chrs "s.srt")).filter_complex_parts = []
          → v = chrs "[0:v]" ∧ a = chrs "[0:a]")
      ∧ ('?' : Char) ∉ v :=
  c3_audio_map_amended cfgZoom ⟨1920, 1080, 10⟩ ⟨false, false⟩ (chrs "v.mp4") (chrs "s.srt")

/-- C3 counterexample: the claim says the audio map is marked optional on
every path, including the zero-fragment direct-mapping one.  With no style
options set, the emitted command maps audio with the plain `[0:a]`
selector, and the optional selector `0:a?` appears nowhere in the
command. -/
theorem c3_direct_audio_not_optional_cex :
    buildFfmpegCommand cfgEmpty ⟨1920, 1080, 10⟩ ⟨false, false⟩ (chrs "v.mp4") (chrs "s.srt")
      = [chrs "ffmpeg", chrs "-i", chrs "v.mp4", chrs "-map", chrs "[0:v]", chrs "-map",
         chrs "[0:a]", chrs "-c:v", chrs "libx264", chrs "-pix_fmt", chrs "yuv420p",
         chrs "-preset", chrs "medium", chrs "-crf", chrs "23", chrs "-c:a", chrs "aac",
         chrs "-b:a", chrs "128k", chrs "-y", chrs "outputs/final_render.mp4"]
    ∧ chrs "0:a?" ∉ buildFfmpegCommand cfgEmpty ⟨1920, 1080, 10⟩ ⟨false, false⟩
        (chrs "v.mp4") (chrs "s.srt") := by
  constructor <;> decide

/-- C4 (amended): the subtitle-path escaping touches only two things:
every colon of the embedded path ends up immediately preceded by a
backslash, and literal double-backslash pairs are rewritten to `/`.
All other path-separator and filter-graph delimiter characters (`;`, `,`,
quote, single `\`) are embedded verbatim and unescaped — the emitted
fragment does not escape them.  (Semicolon occurrences, a filter-graph
chain delimiter, pass through with their count unchanged.) -/
theorem c4_colon_escape_amended (p : List Char) :
    colonEscaped (escapeSrtPath p) = true
    ∧ (escapeSrtPath p).count ';' = p.count ';' := by
  constructor
  · unfold escapeSrtPath
    exact colonEscaped_escapeColons _
  · unfold escapeSrtPath
    rw [count_semi_escapeColons, count_semi_replaceDbl]

/-- A subtitle path containing path separators (`/`) and filter-graph
delimiters (`:`, `;`). -/
def pathCex : List Char := chrs "C:/my;clips/f.srt"

/-- C4 counterexample: for a path containing both separators and delimiter
characters, the embedded path is NOT fully escaped: the emitted subtitles
fragment embeds `C\\:/my;clips/f.srt`, in which the separators `/` and the
chain delimiter `;` are bare — the `;` will be read as a fragment
separator by the filter-graph grammar, corrupting the path. -/
theorem c4_unescaped_delims_cex :
    (∃ c ∈ pathCex, isPathSep c = true)
    ∧ (∃ c ∈ pathCex, isFilterDelim c = true)
    ∧ escapeSrtPath pathCex = chrs "C\\\\:/my;clips/f.srt"
    ∧ allSpecialsEscaped (escapeSrtPath pathCex) = false
    ∧ (finalState cfgSub ⟨1920, 1080, 10⟩ ⟨false, false⟩ (chrs "v.mp4")
          pathCex).filter_complex_parts
        = [chrs "[0:v]" ++ subtitleFragTail pathCex
            (chrs "FontName=Arial,FontSize=24,PrimaryColour=&H00FFFFFF&,Bold=1,BorderStyle=3,OutlineColour=&H80000000&,BackColour=&H80000000&,MarginV=15")] := by
  refine ⟨by decide, by decide, by decide, by decide, by decide⟩

/-- C5 (confirmed): when no stage triggers — crop not applicable, zoom
falsy, no recognized template id, no recognized subtitle style — the plan
has zero filter fragments and the command is exactly the direct-mapping
one: primary input, bare `[0:v]`/`[0:a]` stream maps, fixed output
options; no filter-graph argument is present. -/
theorem c5_no_style_direct_mapping (cfg : RenderConfig) (info : VideoInfo) (fs : FsState)
    (vp srt : List Char)
    (h1 : ¬ cropApplies cfg info)
    (h2 : truthyOpt cfg.zoom_effect = false)
    (h3 : ¬ isT1 cfg) (h4 : ¬ isT2 cfg)
    (h5 : ¬ subtitleRecognized cfg) :
    (finalState cfg info fs vp srt).filter_complex_parts = []
    ∧ buildFfmpegCommand cfg info fs vp srt
        = [chrs "ffmpeg", chrs "-i", vp, chrs "-map", chrs "[0:v]", chrs "-map", chrs "[0:a]"]
          ++ outputOptionsArgs cfg := by
  have h5a : cfg.subtitle_style ≠ some (JVal.str (chrs "bold_white_box")) :=
    fun h => h5 (Or.inl h)
  have h5b : cfg.subtitle_style ≠ some (JVal.str (chrs "yellow_bold")) :=
    fun h => h5 (Or.inr h)
  have hparts : (finalState cfg info fs vp srt).filter_complex_parts = [] := by
    rw [finalState_eq]
    simp only []
    unfold allFrags cropDelta zoomDelta tmplDelta subDelta
    rw [if_neg h1, if_neg (by simp [h2]), if_neg h3, if_neg h4, if_neg h5a, if_neg h5b]
    simp
  have hinputs : (finalState cfg info fs vp srt).inputs_args = [chrs "-i", vp] := by
    rw [finalState_eq]
    simp only []
    unfold tmplInputs
    rw [if_neg (fun hx => h3 hx.1), if_neg (fun hx => h4 hx.1)]
    simp
  refine ⟨hparts, ?_⟩
  unfold buildFfmpegCommand
  rw [if_neg (by simp [hparts]), hinputs]
  simp

/-- C5 witness: the empty config at 1920x1080 yields zero fragments and the
direct-mapping command. -/
theorem c5_no_style_direct_mapping_witness :
    (finalState cfgEmpty ⟨1920, 1080, 10⟩ ⟨false, false⟩ (chrs "v.mp4")
        (chrs "s.srt")).filter_complex_parts = []
    ∧ buildFfmpegCommand cfgEmpty ⟨1920, 1080, 10⟩ ⟨false, false⟩ (chrs "v.mp4") (chrs "s.srt")
        = [chrs "ffmpeg", chrs "-i", chrs "v.mp4", chrs "-map", chrs "[0:v]", chrs "-map",
           chrs "[0:a]"] ++ outputOptionsArgs cfgEmpty :=
  c5_no_style_direct_mapping cfgEmpty ⟨1920, 1080, 10⟩ ⟨false, false⟩ (chrs "v.mp4")
    (chrs "s.srt") (by decide) (by decide) (by decide) (by decide) (by decide)

/-- C6 (confirmed): for `template_1` with the brand-bar asset absent, no
auxiliary input is appended and no input slot is allocated (the next free
slot stays 1), and the fragment list contains the fallback drawn-bar
fragment immediately followed by the brand-text fragment consuming the
bar's output. -/
theorem c6_template1_fallback (cfg : RenderConfig) (info : VideoInfo) (fs : FsState)
    (vp srt : List Char)
    (ht : isT1 cfg) (hb : fs.brand_bar_exists = false) :
    (finalState cfg info fs vp srt).inputs_args = [chrs "-i", vp]
    ∧ (finalState cfg info fs vp srt).next_input_idx = 1
    ∧ ∃ pre post, (finalState cfg info fs vp srt).filter_complex_parts
        = pre ++ [lbl2 cfg info ++ t1DrawboxTail, chrs "[bar_applied]" ++ t1DrawtextTail]
          ++ post := by
  have hnT2 : ¬ isT2 cfg := by
    intro h2
    have h2' : cfg.template_id = some (JVal.str (chrs "template_2")) := h2
    have ht' : cfg.template_id = some (JVal.str (chrs "template_1")) := ht
    rw [ht'] at h2'
    injection h2' with h2a
    injection h2a with h2b
    exact absurd h2b (by decide)
  have hti : tmplInputs cfg fs = [] := by
    unfold tmplInputs
    rw [if_neg (by rintro ⟨_, hbb⟩; rw [hb] at hbb; exact Bool.false_ne_true hbb),
      if_neg (by rintro ⟨hx, _⟩; exact hnT2 hx)]
  have htc : tmplCount cfg fs = 0 := by
    unfold tmplCount
    rw [if_neg]
    rintro (⟨_, hbb⟩ | ⟨hx, _⟩)
    · rw [hb] at hbb
      exact Bool.false_ne_true hbb
    · exact hnT2 hx
  refine ⟨?_, ?_, ?_⟩
  · rw [finalState_eq]
    simp [hti]
  · rw [finalState_eq]
    simp [htc]
  · rw [finalState_eq]
    refine ⟨cropDelta cfg info lbl0 ++ zoomDelta cfg (lbl1 cfg info),
      subDelta cfg srt (lbl3 cfg info), ?_⟩
    simp only []
    unfold allFrags tmplDelta
    rw [if_pos ht, if_neg (by simp [hb])]
    simp [List.append_assoc]

/-- C6 witness: `template_1` with the brand asset absent at 1920x1080. -/
theorem c6_template1_fallback_witness :
    (finalState cfgT1 ⟨1920, 1080, 10⟩ ⟨false, false⟩ (chrs "v.mp4")
        (chrs "s.srt")).inputs_args = [chrs "-i", chrs "v.mp4"]
    ∧ (finalState cfgT1 ⟨1920, 1080, 10⟩ ⟨false, false⟩ (chrs "v.mp4")
        (chrs "s.srt")).next_input_idx = 1
    ∧ ∃ pre post, (finalState cfgT1 ⟨1920, 1080, 10⟩ ⟨false, false⟩ (chrs "v.mp4")
          (chrs "s.srt")).filter_complex_parts
        = pre ++ [lbl2 cfgT1 ⟨1920, 1080, 10⟩ ++ t1DrawboxTail,
            chrs "[bar_applied]" ++ t1DrawtextTail] ++ post :=
  c6_template1_fallback cfgT1 ⟨1920, 1080, 10⟩ ⟨false, false⟩ (chrs "v.mp4") (chrs "s.srt")
    rfl rfl

/-- The two recognised template ids are mutually exclusive. -/
theorem isT2_not_isT1 (cfg : RenderConfig) (h : isT2 cfg) : ¬ isT1 cfg := by
  intro h1
  have h1' : cfg.template_id = some (JVal.str (chrs "template_1")) := h1
  have h2' : cfg.template_id = some (JVal.str (chrs "template_2")) := h
  rw [h2'] at h1'
  injection h1' with ha
  injection ha with hb2
  exact absurd hb2 (by decide)

/-- C7 (confirmed): stream-handle threading.  The emitted fragment list is
one threaded chain from the decoded label `[0:v]` to the final current
label: every fragment's text starts with the label current when its stage
ran and ends with the fresh bracketed label all later fragments build on.
When any fragment exists, the plan's video map is exactly the final
current label, which is the output label the last fragment ends with.
For `template_2` with the watermark asset missing, the stage still rebinds
the handle to the fresh label `[templated]` via a pass-through `null`
fragment, even though it adds no overlay. -/
theorem c7_stream_threading (cfg : RenderConfig) (info : VideoInfo) (fs : FsState)
    (vp srt : List Char) :
    Threaded (chrs "[0:v]") (finalState cfg info fs vp srt).filter_complex_parts
        (finalState cfg info fs vp srt).current_v_stream
    ∧ ((finalState cfg info fs vp srt).filter_complex_parts ≠ [] →
        buildFfmpegCommand cfg info fs vp srt
          = [chrs "ffmpeg"] ++ (finalState cfg info fs vp srt).inputs_args
            ++ [chrs "-filter_complex",
                List.intercalate (chrs ";") (finalState cfg info fs vp srt).filter_complex_parts]
            ++ [chrs "-map", (finalState cfg info fs vp srt).current_v_stream,
                chrs "-map", chrs "0:a?"]
            ++ outputOptionsArgs cfg)
    ∧ (∀ f, (finalState cfg info fs vp srt).filter_complex_parts.getLast? = some f →
        (finalState cfg info fs vp srt).current_v_stream <:+ f)
    ∧ (isT2 cfg → fs.watermark_exists = false →
        templateStage cfg fs (midState cfg info vp)
          = { inputs_args := (midState cfg info vp).inputs_args,
              filter_complex_parts := (midState cfg info vp).filter_complex_parts
                ++ [(midState cfg info vp).current_v_stream ++ t2BorderTail,
                    chrs "[bordered]" ++ t2NullTail],
              current_v_stream := chrs "[templated]",
              next_input_idx := (midState cfg info vp).next_input_idx }
        ∧ (midState cfg info vp).current_v_stream ≠ chrs "[templated]") := by
  have ha : Threaded (chrs "[0:v]") (finalState cfg info fs vp srt).filter_complex_parts
      (finalState cfg info fs vp srt).current_v_stream := by
    rw [finalState_eq]
    exact threaded_allFrags cfg info fs srt
  refine ⟨ha, ?_, ?_, ?_⟩
  · intro h
    unfold buildFfmpegCommand
    rw [if_pos h]
  · intro f hf
    exact Threaded.last_suffix _ _ _ ha f hf
  · intro ht2 hw
    have hnT1 : ¬ isT1 cfg := isT2_not_isT1 cfg ht2
    constructor
    · rw [templateStage_eq]
      have hti : tmplInputs cfg fs = [] := by
        unfold tmplInputs
        rw [if_neg (fun hx => hnT1 hx.1),
          if_neg (by rintro ⟨_, hww⟩; rw [hw] at hww; exact Bool.false_ne_true hww)]
      have htc : tmplCount cfg fs = 0 := by
        unfold tmplCount
        rw [if_neg]
        rintro (⟨hx, _⟩ | ⟨_, hww⟩)
        · exact hnT1 hx
        · rw [hw] at hww
          exact Bool.false_ne_true hww
      have htd : tmplDelta cfg fs (midState cfg info vp).current_v_stream
          (midState cfg info vp).next_input_idx
          = [(midState cfg info vp).current_v_stream ++ t2BorderTail,
             chrs "[bordered]" ++ t2NullTail] := by
        unfold tmplDelta
        rw [if_neg hnT1, if_pos ht2, if_neg (by simp [hw])]
        rfl
      rw [hti, htc, htd]
      have htl : tmplLabel cfg (midState cfg info vp).current_v_stream
          = chrs "[templated]" := by
        unfold tmplLabel
        rw [if_pos (Or.inr ht2)]
      rw [htl]
      simp
    · rw [midState_eq]
      simp only []
      rcases lbl2_cases cfg info with h | h | h <;> rw [h] <;> decide

/-- C7 witness: `template_2` with the watermark missing at 1920x1080 — the
fragment list is threaded, and the template stage is the pass-through that
still rebinds to `[templated]`. -/
theorem c7_stream_threading_witness :
    Threaded (chrs "[0:v]") (finalState cfgT2 ⟨1920, 1080, 5⟩ ⟨false, false⟩ (chrs "v.mp4")
        (chrs "s.srt")).filter_complex_parts
      (finalState cfgT2 ⟨1920, 1080, 5⟩ ⟨false, false⟩ (chrs "v.mp4")
        (chrs "s.srt")).current_v_stream
    ∧ (templateStage cfgT2 ⟨false, false⟩ (midState cfgT2 ⟨1920, 1080, 5⟩ (chrs "v.mp4"))
        = { inputs_args := (midState cfgT2 ⟨1920, 1080, 5⟩ (chrs "v.mp4")).inputs_args,
            filter_complex_parts :=
              (midState cfgT2 ⟨1920, 1080, 5⟩ (chrs "v.mp4")).filter_complex_parts
                ++ [(midState cfgT2 ⟨1920, 1080, 5⟩ (chrs "v.mp4")).current_v_stream
                      ++ t2BorderTail,
                    chrs "[bordered]" ++ t2NullTail],
            current_v_stream := chrs "[templated]",
            next_input_idx := (midState cfgT2 ⟨1920, 1080, 5⟩ (chrs "v.mp4")).next_input_idx }
      ∧ (midState cfgT2 ⟨1920, 1080, 5⟩ (chrs "v.mp4")).current_v_stream
          ≠ chrs "[templated]") :=
  ⟨(c7_stream_threading cfgT2 ⟨1920, 1080, 5⟩ ⟨false, false⟩ (chrs "v.mp4") (chrs "s.srt")).1,
   (c7_stream_threading cfgT2 ⟨1920, 1080, 5⟩ ⟨false, false⟩ (chrs "v.mp4")
      (chrs "s.srt")).2.2.2 rfl rfl⟩

/-- C8 (confirmed): input slots.  In every compilation the input-argument
list holds exactly two arguments (`-i`, path) per allocated slot, so the
next free slot index always equals the number of declared inputs — slots
are allocated one at a time, in request order, never reused.  For
`template_2` with the watermark present, the watermark file occupies slot
1, the first index after the primary input, the final free index is 2, and
the watermark overlay fragment references exactly slot 1. -/
theorem c8_slot_allocation (cfg : RenderConfig) (info : VideoInfo) (fs : FsState)
    (vp srt : List Char) :
    (finalState cfg info fs vp srt).inputs_args.length
        = 2 * (finalState cfg info fs vp srt).next_input_idx
    ∧ (isT2 cfg → fs.watermark_exists = true →
        (finalState cfg info fs vp srt).inputs_args
            = [chrs "-i", vp, chrs "-i", chrs "assets/watermark_logo.png"]
        ∧ (finalState cfg info fs vp srt).next_input_idx = 2
        ∧ ∃ pre post, (finalState cfg info fs vp srt).filter_complex_parts
            = pre ++ [lbl2 cfg info ++ t2BorderTail, chrs "[bordered]" ++ t2OverlayTail 1]
              ++ post) := by
  constructor
  · rw [finalState_eq]
    simp only []
    unfold tmplInputs tmplCount
    by_cases hA : isT1 cfg ∧ fs.brand_bar_exists = true
    · rw [if_pos hA, if_pos (Or.inl hA)]
      simp
    · by_cases hB : isT2 cfg ∧ fs.watermark_exists = true
      · rw [if_neg hA, if_pos hB, if_pos (Or.inr hB)]
        simp
      · rw [if_neg hA, if_neg hB, if_neg (by tauto)]
        simp
  · intro ht2 hw
    have hnT1 : ¬ isT1 cfg := isT2_not_isT1 cfg ht2
    have hti : tmplInputs cfg fs = [chrs "-i", chrs "assets/watermark_logo.png"] := by
      unfold tmplInputs
      rw [if_neg (fun hx => hnT1 hx.1), if_pos ⟨ht2, hw⟩]
    have htc : tmplCount cfg fs = 1 := by
      unfold tmplCount
      rw [if_pos (Or.inr ⟨ht2, hw⟩)]
    refine ⟨?_, ?_, ?_⟩
    · rw [finalState_eq]
      simp [hti]
    · rw [finalState_eq]
      simp [htc]
    · rw [finalState_eq]
      refine ⟨cropDelta cfg info lbl0 ++ zoomDelta cfg (lbl1 cfg info),
        subDelta cfg srt (lbl3 cfg info), ?_⟩
      simp only []
      unfold allFrags tmplDelta
      rw [if_neg hnT1, if_pos ht2, if_pos hw]
      simp [List.append_assoc]

/-- C8 witness: `template_2` with the watermark asset present — the
watermark occupies slot 1 and the overlay fragment references `[1:v]`. -/
theorem c8_slot_allocation_witness :
    (finalState cfgT2 ⟨1920, 1080, 10⟩ ⟨false, true⟩ (chrs "v.mp4")
        (chrs "s.srt")).inputs_args
        = [chrs "-i", chrs "v.mp4", chrs "-i", chrs "assets/watermark_logo.png"]
    ∧ (finalState cfgT2 ⟨1920, 1080, 10⟩ ⟨false, true⟩ (chrs "v.mp4")
        (chrs "s.srt")).next_input_idx = 2
    ∧ ∃ pre post, (finalState cfgT2 ⟨1920, 1080, 10⟩ ⟨false, true⟩ (chrs "v.mp4")
          (chrs "s.srt")).filter_complex_parts
        = pre ++ [lbl2 cfgT2 ⟨1920, 1080, 10⟩ ++ t2BorderTail,
            chrs "[bordered]" ++ t2OverlayTail 1] ++ post :=
  (c8_slot_allocation cfgT2 ⟨1920, 1080, 10⟩ ⟨false, true⟩ (chrs "v.mp4")
    (chrs "s.srt")).2 rfl rfl

/-- C9 (confirmed): for portrait or square metadata, requesting
`center_crop` is a complete no-op — the crop stage returns its input state
unchanged (no fragment, no handle rebind), and the whole compiled command
is identical to the one for the same config without `crop_mode`; in
particular compilation does not fail. -/
theorem c9_center_crop_noop_portrait (cfg : RenderConfig) (info : VideoInfo) (fs : FsState)
    (vp srt : List Char) (st : BuildState)
    (hc : cfg.crop_mode = some (JVal.str (chrs "center_crop")))
    (hp : info.width ≤ info.height) :
    cropStage cfg info st = st
    ∧ buildFfmpegCommand cfg info fs vp srt
        = buildFfmpegCommand { cfg with crop_mode := none } info fs vp srt := by
  have hna : ¬ cropApplies cfg info := by
    rintro ⟨_, hlt⟩
    exact absurd hlt (not_lt.mpr hp)
  have hna2 : ¬ cropApplies { cfg with crop_mode := none } info := by
    rintro ⟨hcm, _⟩
    simp at hcm
  refine ⟨cropStage_skip cfg info st hna, ?_⟩
  have hfs : finalState cfg info fs vp srt
      = finalState { cfg with crop_mode := none } info fs vp srt := by
    unfold finalState
    rw [cropStage_skip cfg info _ hna, cropStage_skip _ info _ hna2,
      zoomStage_congr { cfg with crop_mode := none } cfg _ rfl,
      templateStage_congr { cfg with crop_mode := none } cfg fs _ rfl,
      subtitleStage_congr { cfg with crop_mode := none } cfg srt _ rfl]
  have ho : outputOptionsArgs cfg = outputOptionsArgs { cfg with crop_mode := none } := rfl
  unfold buildFfmpegCommand
  rw [hfs, ho]

/-- C9 witness: square 1080x1080 metadata with `center_crop` requested. -/
theorem c9_center_crop_noop_portrait_witness :
    cropStage cfgCC ⟨1080, 1080, 10⟩ (initState (chrs "v.mp4")) = initState (chrs "v.mp4")
    ∧ buildFfmpegCommand cfgCC ⟨1080, 1080, 10⟩ ⟨false, false⟩ (chrs "v.mp4") (chrs "s.srt")
        = buildFfmpegCommand { cfgCC with crop_mode := none } ⟨1080, 1080, 10⟩ ⟨false, false⟩
            (chrs "v.mp4") (chrs "s.srt") :=
  c9_center_crop_noop_portrait cfgCC ⟨1080, 1080, 10⟩ ⟨false, false⟩ (chrs "v.mp4")
    (chrs "s.srt") (initState (chrs "v.mp4")) rfl (by decide)

/-- C10 (confirmed): the zoom stage applies exactly when the config's
`zoom_effect` value is truthy under Python truthiness, not only for the
boolean `true`: the plan contains a fragment ending in the zoom output
label `[zoomed]` iff `zoom_effect` is truthy.  In particular the nonempty
string `"false"` and the number 1 are truthy (they trigger the zoom
fragment), while 0, the empty string, `false`, and an absent key are
falsy. -/
theorem c10_zoom_truthiness (cfg : RenderConfig) (info : VideoInfo) (fs : FsState)
    (vp srt : List Char) :
    ((∃ f ∈ (finalState cfg info fs vp srt).filter_complex_parts, chrs "[zoomed]" <:+ f)
      ↔ truthyOpt cfg.zoom_effect = true)
    ∧ truthy (JVal.str (chrs "false")) = true
    ∧ truthy (JVal.num 1) = true
    ∧ truthy (JVal.num 0) = false
    ∧ truthy (JVal.str []) = false
    ∧ truthy (JVal.bool false) = false
    ∧ truthyOpt none = false := by
  refine ⟨?_, by decide, by decide, by decide, by decide, by decide, rfl⟩
  simp only [finalState_eq]
  constructor
  · rintro ⟨f, hf, hsuf⟩
    by_contra hz
    have hz2 : truthyOpt cfg.zoom_effect = false := by
      cases h : truthyOpt cfg.zoom_effect
      · rfl
      · exact absurd h hz
    have hzd : zoomDelta cfg (lbl1 cfg info) = [] := by
      unfold zoomDelta
      rw [if_neg (by simp [hz2])]
    unfold allFrags at hf
    rw [hzd] at hf
    simp only [List.append_nil, List.mem_append] at hf
    exact noZoom_other_deltas cfg info fs srt lbl0 (lbl2 cfg info) (lbl3 cfg info) 1 f
      (by tauto) hsuf
  · intro hz
    refine ⟨lbl1 cfg info ++ zoomFragTail, ?_, suffix_trans_append _ _ _ (by decide)⟩
    unfold allFrags zoomDelta
    rw [if_pos hz]
    simp

end RenderEngine
